import Mathlib

/-!
Verification of the NCCL example external-tuner plugin
(`ext-tuner/example/plugin.c` and `ext-tuner/example/nccl/tuner.h`).

The C code is shallowly embedded: C `float` arithmetic is modelled by exact
rational arithmetic over `ℚ`, C `int`/`long` by `ℤ`, `size_t` by `ℕ`.
Decimal literals such as `6.8` denote the exact rational the source text
writes.  C integer division (truncation toward zero) is `Int.tdiv`.
-/

namespace NcclTuner

/-- Collective function identifiers, from the `ncclFunc_t` enum in
`tuner.h` line 22. -/
inductive ncclFunc : Type
  | ncclFuncBroadcast
  | ncclFuncReduce
  | ncclFuncAllGather
  | ncclFuncReduceScatter
  | ncclFuncAllReduce
  | ncclFuncSendRecv
  | ncclFuncSend
  | ncclFuncRecv
  | ncclNumFuncs
deriving DecidableEq, Repr

/-- Result codes crossing the plugin boundary.  The enum itself is declared
in `nccl.h`, which is not part of this repository snapshot; modelled from the
spec's error taxonomy (success, plus the distinct initialization error that
`pluginInit` returns on allocation failure). -/
inductive ncclResult : Type
  | ncclSuccess
  | ncclInternalError
deriving DecidableEq, Repr

/-- `NCCL_NUM_ALGORITHMS` (tuner.h line 24). -/
def NCCL_NUM_ALGORITHMS : ℕ := 6
/-- `NCCL_ALGO_TREE` (tuner.h line 26). -/
def NCCL_ALGO_TREE : ℕ := 0
/-- `NCCL_ALGO_RING` (tuner.h line 27). -/
def NCCL_ALGO_RING : ℕ := 1
/-- `NCCL_ALGO_COLLNET_DIRECT` (tuner.h line 28). -/
def NCCL_ALGO_COLLNET_DIRECT : ℕ := 2
/-- `NCCL_ALGO_COLLNET_CHAIN` (tuner.h line 29). -/
def NCCL_ALGO_COLLNET_CHAIN : ℕ := 3
/-- `NCCL_ALGO_NVLS` (tuner.h line 30). -/
def NCCL_ALGO_NVLS : ℕ := 4
/-- `NCCL_ALGO_NVLS_TREE` (tuner.h line 31). -/
def NCCL_ALGO_NVLS_TREE : ℕ := 5

/-- `NCCL_NUM_PROTOCOLS` (tuner.h line 33). -/
def NCCL_NUM_PROTOCOLS : ℕ := 3
/-- `NCCL_PROTO_LL` (tuner.h line 35). -/
def NCCL_PROTO_LL : ℕ := 0
/-- `NCCL_PROTO_LL128` (tuner.h line 36). -/
def NCCL_PROTO_LL128 : ℕ := 1
/-- `NCCL_PROTO_SIMPLE` (tuner.h line 37). -/
def NCCL_PROTO_SIMPLE : ℕ := 2

/-- Base algorithm latency table `nccl_base_lat[NCCL_NUM_ALGORITHMS][NCCL_NUM_PROTOCOLS]`
(tuner.h lines 88-95).  Rows: Tree, Ring, CollnetDirect, CollnetChain, NVLS,
NVLSTree; columns: LL, LL128, Simple.  All entries of the last four rows are 0
in the source; indices outside the 6 x 3 array (undefined behaviour in C,
never exercised by the plugin) are mapped to 0. -/
def nccl_base_lat (algo proto : ℕ) : ℚ :=
  match algo, proto with
  | 0, 0 => 6.8 | 0, 1 => 14.0 | 0, 2 => 0    -- Tree
  | 1, 0 => 6.6 | 1, 1 => 14.0 | 1, 2 => 8.4  -- Ring
  | _, _ => 0

/-- NVLink latency table `nccl_nvlink_lat[NCCL_NUM_ALGORITHMS][NCCL_NUM_PROTOCOLS]`
(tuner.h lines 98-105).  Indices outside the array are mapped to 0. -/
def nccl_nvlink_lat (algo proto : ℕ) : ℚ :=
  match algo, proto with
  | 0, 0 => 0.6 | 0, 1 => 1.25 | 0, 2 => 28   -- Tree (LL/LL128/Simple)
  | 1, 0 => 0.6 | 1, 1 => 1.9  | 1, 2 => 3.4  -- Ring (LL/LL128/Simple)
  | 2, 2 => 3.7                               -- CollNetDirect (Simple)
  | 3, 2 => 2.8                               -- CollNetChain (Simple)
  | 4, 2 => 25                                -- NVLS (Simple)
  | 5, 2 => 25                                -- NVLSTree (Simple)
  | _, _ => 0

/-- `NCCL_TUNER_NET_LAT` (tuner.h line 107). -/
def NCCL_TUNER_NET_LAT : ℚ := 3
/-- `NCCL_TUNER_NET_NUM_CHANNELS` (tuner.h line 108). -/
def NCCL_TUNER_NET_NUM_CHANNELS : ℤ := 16
/-- `NCCL_TUNER_INTERNODE_BW` (tuner.h line 109). -/
def NCCL_TUNER_INTERNODE_BW : ℚ := 50.0 * 1024 * 1024 * 1024 * 1e-6
/-- `NCCL_TUNER_INTRANODE_BW` (tuner.h line 119). -/
def NCCL_TUNER_INTRANODE_BW : ℚ := 20.0 * 1024 * 1024 * 1024 * 1e-6

/-- `struct nccl_tuner_model_params` (tuner.h lines 121-126). -/
structure nccl_tuner_model_params : Type where
  net_lat : ℚ
  internode_bw : ℚ
  intranode_bw : ℚ
  num_channels : ℤ
deriving DecidableEq, Repr

/-- `struct nccl_tuner_model_dims` (tuner.h lines 128-131). -/
structure nccl_tuner_model_dims : Type where
  num_ranks : ℤ
  num_nodes : ℤ
deriving DecidableEq, Repr

/-- `struct nccl_tuner_context` (tuner.h lines 133-136). -/
structure nccl_tuner_context : Type where
  dims : nccl_tuner_model_dims
  params : nccl_tuner_model_params
deriving DecidableEq, Repr

/-- Fuel-indexed helper for `log2i`.  The C loop halves `n` at most `n`
times, so fuel `n` is enough; structural recursion on the fuel keeps the
definition kernel-reducible. -/
def log2iAux : ℕ → ℕ → ℕ
  | 0, _ => 0
  | fuel + 1, n => if n < 2 then 0 else log2iAux fuel (n / 2) + 1

/-- `log2i` (tuner.h lines 139-143): `l = 0; while (n >>= 1) l++; return l;`.
For `n ≥ 0` this is the floor of the base-2 logarithm (0 at 0 and 1).  The C
loop shifts a `long`; a negative argument is implementation-defined there and
never produced by the plugin, so the model takes the absolute-value-free
`toNat` view (negative arguments map to 0). -/
def log2i (n : ℤ) : ℤ :=
  (log2iAux n.toNat n.toNat : ℤ)

/-- The `switch (func) / switch (algo)` body of `nccl_tuner_compute_cost`
(tuner.h lines 164-194): for a modelled `(func, algo)` pair, the total
latency accumulated into `latency` and the raw bandwidth assigned to `bw`
before the protocol penalty; `none` when the code returns `-1` instead
(`default:` branches). -/
def nccl_tuner_compute_cost_branch (params : nccl_tuner_model_params)
    (dims : nccl_tuner_model_dims) (func : ncclFunc) (algo proto : ℕ) :
    Option (ℚ × ℚ) :=
  -- latency = nccl_base_lat[algo][proto]; intraLat = nccl_nvlink_lat[algo][proto];
  -- interLat = params->net_lat;  (tuner.h lines 157-159)
  let latency := nccl_base_lat algo proto
  let intraLat := nccl_nvlink_lat algo proto
  let interLat := params.net_lat
  match func with
  | ncclFunc.ncclFuncAllReduce =>
    if algo = NCCL_ALGO_RING then
      -- tuner.h lines 167-173
      let num_steps : ℤ := 2 * (dims.num_ranks - 1)
      let num_internode_steps : ℤ := 2 * dims.num_nodes
      let num_intranode_steps : ℤ := num_steps - num_internode_steps
      some (latency + (num_internode_steps : ℚ) * interLat
              + (num_intranode_steps : ℚ) * intraLat,
            params.internode_bw * (params.num_channels : ℚ))
    else if algo = NCCL_ALGO_TREE then
      -- tuner.h lines 175-179; `num_ranks / num_nodes` is C int division
      some (latency + 2 * (((Int.tdiv dims.num_ranks dims.num_nodes - 1 : ℤ) : ℚ) * intraLat
              + (log2i dims.num_nodes : ℚ) * interLat),
            params.internode_bw * (params.num_channels : ℚ) / 2)
    else if algo = NCCL_ALGO_NVLS_TREE then
      -- tuner.h lines 181-184
      some (latency + intraLat + 2 * (log2i dims.num_nodes : ℚ) * interLat,
            params.internode_bw * (params.num_channels : ℚ) / 2)
    else
      none  -- tuner.h lines 186-188: `return -1`
  | _ => none  -- tuner.h lines 192-193: `return -1`

/-- Protocol bandwidth penalty (tuner.h lines 196-202): `bw` is multiplied
by 0.5 for `NCCL_PROTO_LL`, by 0.9375 for `NCCL_PROTO_LL128`, and is
unchanged otherwise. -/
def nccl_proto_penalty (proto : ℕ) : ℚ :=
  if proto = NCCL_PROTO_LL then 0.5
  else if proto = NCCL_PROTO_LL128 then 0.9375
  else 1

/-- `nccl_tuner_compute_cost` (tuner.h lines 145-208). -/
def nccl_tuner_compute_cost (params : nccl_tuner_model_params)
    (dims : nccl_tuner_model_dims) (func : ncclFunc) (algo proto : ℕ)
    (pipe_ops : ℤ) (size : ℕ) : ℚ :=
  match nccl_tuner_compute_cost_branch params dims func algo proto with
  | none => -1
  | some (latency, bw0) =>
    let bw := bw0 * nccl_proto_penalty proto
    -- cost = (latency * pipe_ops) + size / bw;  (tuner.h line 205)
    latency * (pipe_ops : ℚ) + (size : ℚ) / bw

/-- The `(algo, proto)` pairs reaching the cost-function call in
`pluginGetCollInfo`'s nested loops (plugin.c lines 46-63), in loop order,
after the four `continue` filters: NVLS always skipped; NVLS_TREE skipped
without `nvlsSupport`; the two collnet algorithms skipped without
`collNetSupport`; NVLS_TREE restricted to `NCCL_PROTO_SIMPLE`. -/
def candidatePairs (collNetSupport nvlsSupport : Bool) : List (ℕ × ℕ) :=
  (List.range NCCL_NUM_ALGORITHMS).flatMap fun algo =>
    if algo = NCCL_ALGO_NVLS then []
    else if nvlsSupport = false ∧ algo = NCCL_ALGO_NVLS_TREE then []
    else if collNetSupport = false
            ∧ (algo = NCCL_ALGO_COLLNET_DIRECT ∨ algo = NCCL_ALGO_COLLNET_CHAIN) then []
    else (List.range NCCL_NUM_PROTOCOLS).filterMap fun proto =>
      if algo = NCCL_ALGO_NVLS_TREE ∧ proto ≠ NCCL_PROTO_SIMPLE then none
      else some (algo, proto)

/-- One iteration of the selection loop body (plugin.c lines 62-71): skip a
candidate with negative cost, otherwise replace the incumbent exactly when
the new cost is strictly below the lowest cost seen so far (`FLT_MAX`
initially, modelled by `none`). -/
def selStep {α : Type} (f : α → ℚ) (acc : Option α) (x : α) : Option α :=
  if f x < 0 then acc
  else
    match acc with
    | none => some x
    | some b => if f x < f b then some x else some b

/-- The whole double loop of `pluginGetCollInfo` (plugin.c lines 46-73),
folded over the admissible candidates in loop order.  The result is the
final value of the incumbent, i.e. the pair last written to
`*algorithm` / `*protocol`; `none` when no write happened. -/
def selectLoop {α : Type} (f : α → ℚ) (l : List α) : Option α :=
  l.foldl (selStep f) none

/-- The caller-side output cells `*algorithm`, `*protocol`, `*nChannels` of
`pluginGetCollInfo`.  A field the plugin does not write keeps its incoming
value ("unset", caller default). -/
structure CollOut : Type where
  algorithm : ℤ
  protocol : ℤ
  nChannels : ℤ
deriving DecidableEq, Repr

/-- `pluginInit` (plugin.c lines 10-33), successful path: the context stores
the communicator dimensions and the constant model parameters of lines
14-19.  The allocation-failure path returns `ncclInternalError` with no
context; it is outside the pure model. -/
def pluginInit (nRanks nNodes : ℕ) : nccl_tuner_context :=
  { dims := { num_ranks := (nRanks : ℤ), num_nodes := (nNodes : ℤ) },
    params := { net_lat := NCCL_TUNER_NET_LAT,
                internode_bw := NCCL_TUNER_INTERNODE_BW,
                intranode_bw := NCCL_TUNER_INTRANODE_BW,
                num_channels := NCCL_TUNER_NET_NUM_CHANNELS } }

/-- The model parameters built at initialization (plugin.c lines 14-19). -/
def session_params : nccl_tuner_model_params :=
  (pluginInit 1 1).params

/-- The cost function as invoked from the selection loop (plugin.c lines
62-63): the context's parameters and dimensions together with the per-call
arguments, applied to one `(algo, proto)` candidate. -/
def engineCost (ctx : nccl_tuner_context) (collType : ncclFunc) (nBytes : ℕ)
    (numPipeOps : ℤ) (ap : ℕ × ℕ) : ℚ :=
  nccl_tuner_compute_cost ctx.params ctx.dims collType ap.1 ap.2 numPipeOps nBytes

/-- `pluginGetCollInfo` (plugin.c lines 35-75).  Returns the result code and
the final state of the three output cells.  With `num_nodes <= 2` the search
is skipped (lines 43-44).  Inside the loop, every strict improvement writes
`*algorithm` and `*protocol` (lines 67-71), so the final cells reflect the
final incumbent of `selectLoop`; `*nChannels` is never written. -/
def pluginGetCollInfo (ctx : nccl_tuner_context) (collType : ncclFunc)
    (nBytes : ℕ) (collNetSupport nvlsSupport : Bool) (numPipeOps : ℤ)
    (out : CollOut) : ncclResult × CollOut :=
  if ctx.dims.num_nodes ≤ 2 then (ncclResult.ncclSuccess, out)
  else
    match selectLoop (engineCost ctx collType nBytes numPipeOps)
        (candidatePairs collNetSupport nvlsSupport) with
    | none => (ncclResult.ncclSuccess, out)
    | some ap =>
      (ncclResult.ncclSuccess,
       { out with algorithm := (ap.1 : ℤ), protocol := (ap.2 : ℤ) })

/-! ### Characterization of the selection loop -/

theorem selStep_none {α : Type} (f : α → ℚ) (x : α) :
    selStep f none x = if f x < 0 then none else some x := rfl

theorem selStep_some {α : Type} (f : α → ℚ) (b x : α) :
    selStep f (some b) x =
      if f x < 0 then some b else if f x < f b then some x else some b := rfl

theorem selStep_eq_none_iff {α : Type} (f : α → ℚ) (acc : Option α) (x : α) :
    selStep f acc x = none ↔ acc = none ∧ f x < 0 := by
  cases acc with
  | none =>
    rw [selStep_none]
    by_cases h : f x < 0 <;> simp [h]
  | some b =>
    rw [selStep_some]
    by_cases h : f x < 0
    · simp [h]
    · rw [if_neg h]
      by_cases h2 : f x < f b <;> simp [h, h2]

theorem foldl_selStep_eq_none_iff {α : Type} (f : α → ℚ) :
    ∀ (l : List α) (acc : Option α),
      l.foldl (selStep f) acc = none ↔ acc = none ∧ ∀ x ∈ l, f x < 0 := by
  intro l
  induction l with
  | nil => intro acc; simp
  | cons x l ih =>
    intro acc
    rw [List.foldl_cons, ih, selStep_eq_none_iff]
    simp only [List.mem_cons]
    constructor
    · rintro ⟨⟨h1, h2⟩, h3⟩
      refine ⟨h1, ?_⟩
      rintro y (rfl | hy)
      · exact h2
      · exact h3 y hy
    · rintro ⟨h1, h2⟩
      exact ⟨⟨h1, h2 x (Or.inl rfl)⟩, fun y hy => h2 y (Or.inr hy)⟩

theorem foldl_selStep_some_of_some {α : Type} (f : α → ℚ) :
    ∀ (l : List α) (b m : α), l.foldl (selStep f) (some b) = some m →
      (m = b ∧ ∀ y ∈ l, f y < 0 ∨ f b ≤ f y) ∨
      (0 ≤ f m ∧ f m < f b ∧ ∃ l1 l2, l = l1 ++ m :: l2 ∧
        (∀ y ∈ l1, f y < 0 ∨ f m < f y) ∧ (∀ y ∈ l2, f y < 0 ∨ f m ≤ f y)) := by
  intro l
  induction l with
  | nil =>
    intro b m h
    simp only [List.foldl_nil, Option.some.injEq] at h
    exact Or.inl ⟨h.symm, by simp⟩
  | cons x l ih =>
    intro b m h
    rw [List.foldl_cons, selStep_some] at h
    by_cases hx : f x < 0
    · rw [if_pos hx] at h
      rcases ih b m h with ⟨rfl, hall⟩ | ⟨h0, hlt, l1, l2, rfl, hpre, hsuf⟩
      · refine Or.inl ⟨rfl, ?_⟩
        intro y hy
        rcases List.mem_cons.mp hy with rfl | hy
        · exact Or.inl hx
        · exact hall y hy
      · refine Or.inr ⟨h0, hlt, x :: l1, l2, by simp, ?_, hsuf⟩
        intro y hy
        rcases List.mem_cons.mp hy with rfl | hy
        · exact Or.inl hx
        · exact hpre y hy
    · rw [if_neg hx] at h
      by_cases hxb : f x < f b
      · rw [if_pos hxb] at h
        rcases ih x m h with ⟨rfl, hall⟩ | ⟨h0, hlt, l1, l2, rfl, hpre, hsuf⟩
        · exact Or.inr ⟨le_of_not_lt hx, hxb, [], l, by simp, by simp, hall⟩
        · refine Or.inr ⟨h0, lt_trans hlt hxb, x :: l1, l2, by simp, ?_, hsuf⟩
          intro y hy
          rcases List.mem_cons.mp hy with rfl | hy
          · exact Or.inr hlt
          · exact hpre y hy
      · rw [if_neg hxb] at h
        rcases ih b m h with ⟨rfl, hall⟩ | ⟨h0, hlt, l1, l2, rfl, hpre, hsuf⟩
        · refine Or.inl ⟨rfl, ?_⟩
          intro y hy
          rcases List.mem_cons.mp hy with rfl | hy
          · exact Or.inr (le_of_not_lt hxb)
          · exact hall y hy
        · refine Or.inr ⟨h0, hlt, x :: l1, l2, by simp, ?_, hsuf⟩
          intro y hy
          rcases List.mem_cons.mp hy with rfl | hy
          · exact Or.inr (lt_of_lt_of_le hlt (le_of_not_lt hxb))
          · exact hpre y hy

theorem selectLoop_eq_none_iff {α : Type} (f : α → ℚ) (l : List α) :
    selectLoop f l = none ↔ ∀ x ∈ l, f x < 0 := by
  rw [selectLoop, foldl_selStep_eq_none_iff]
  simp

/-- The selection loop's result is the first candidate achieving the minimum
non-negative cost: every candidate strictly before it is negative-cost or
strictly worse, and every candidate after it is negative-cost or no
better. -/
theorem selectLoop_some_spec {α : Type} (f : α → ℚ) :
    ∀ (l : List α) (m : α), selectLoop f l = some m →
      0 ≤ f m ∧ ∃ l1 l2, l = l1 ++ m :: l2 ∧
        (∀ y ∈ l1, f y < 0 ∨ f m < f y) ∧ (∀ y ∈ l2, f y < 0 ∨ f m ≤ f y) := by
  intro l
  induction l with
  | nil => intro m h; simp [selectLoop] at h
  | cons x l ih =>
    intro m h
    rw [selectLoop, List.foldl_cons, selStep_none] at h
    by_cases hx : f x < 0
    · rw [if_pos hx] at h
      obtain ⟨h0, l1, l2, rfl, hpre, hsuf⟩ := ih m h
      refine ⟨h0, x :: l1, l2, by simp, ?_, hsuf⟩
      intro y hy
      rcases List.mem_cons.mp hy with rfl | hy
      · exact Or.inl hx
      · exact hpre y hy
    · rw [if_neg hx] at h
      rcases foldl_selStep_some_of_some f l x m h with
        ⟨rfl, hall⟩ | ⟨h0, hlt, l1, l2, rfl, hpre, hsuf⟩
      · exact ⟨le_of_not_lt hx, [], l, rfl, by simp, hall⟩
      · refine ⟨h0, x :: l1, l2, by simp, ?_, hsuf⟩
        intro y hy
        rcases List.mem_cons.mp hy with rfl | hy
        · exact Or.inr hlt
        · exact hpre y hy

/-- Consequence of `selectLoop_some_spec`: the result is a member of the
candidate list, has non-negative cost, and its cost is minimal among the
non-negative-cost candidates. -/
theorem selectLoop_some_min {α : Type} (f : α → ℚ) (l : List α) (m : α)
    (h : selectLoop f l = some m) :
    m ∈ l ∧ 0 ≤ f m ∧ ∀ y ∈ l, 0 ≤ f y → f m ≤ f y := by
  obtain ⟨h0, l1, l2, rfl, hpre, hsuf⟩ := selectLoop_some_spec f _ m h
  refine ⟨by simp, h0, ?_⟩
  intro y hy hy0
  rcases List.mem_append.mp hy with hy1 | hy2
  · rcases hpre y hy1 with hneg | hgt
    · exact absurd hy0 (not_le.mpr hneg)
    · exact le_of_lt hgt
  · rcases List.mem_cons.mp hy2 with rfl | hy2
    · exact le_refl _
    · rcases hsuf y hy2 with hneg | hge
      · exact absurd hy0 (not_le.mpr hneg)
      · exact hge

/-! ### Properties of the cost function -/

theorem cost_of_branch_none (params : nccl_tuner_model_params)
    (dims : nccl_tuner_model_dims) (func : ncclFunc) (algo proto : ℕ)
    (pipe_ops : ℤ) (size : ℕ)
    (h : nccl_tuner_compute_cost_branch params dims func algo proto = none) :
    nccl_tuner_compute_cost params dims func algo proto pipe_ops size = -1 := by
  simp [nccl_tuner_compute_cost, h]

theorem cost_of_branch_some (params : nccl_tuner_model_params)
    (dims : nccl_tuner_model_dims) (func : ncclFunc) (algo proto : ℕ)
    (pipe_ops : ℤ) (size : ℕ) (lat bw0 : ℚ)
    (h : nccl_tuner_compute_cost_branch params dims func algo proto = some (lat, bw0)) :
    nccl_tuner_compute_cost params dims func algo proto pipe_ops size =
      lat * (pipe_ops : ℚ) + (size : ℚ) / (bw0 * nccl_proto_penalty proto) := by
  simp [nccl_tuner_compute_cost, h]

theorem branch_none_of_unmodeled (params : nccl_tuner_model_params)
    (dims : nccl_tuner_model_dims) (func : ncclFunc) (algo proto : ℕ)
    (h : func ≠ ncclFunc.ncclFuncAllReduce ∨
         (algo ≠ NCCL_ALGO_RING ∧ algo ≠ NCCL_ALGO_TREE ∧ algo ≠ NCCL_ALGO_NVLS_TREE)) :
    nccl_tuner_compute_cost_branch params dims func algo proto = none := by
  cases func
  case ncclFuncAllReduce =>
    rcases h with h | ⟨h1, h0, h5⟩
    · exact absurd rfl h
    · simp [nccl_tuner_compute_cost_branch, h1, h0, h5]
  all_goals rfl

/-- Every bandwidth the switch assigns is the inter-node bandwidth times the
channel count, possibly halved. -/
theorem branch_bw_cases (params : nccl_tuner_model_params)
    (dims : nccl_tuner_model_dims) (func : ncclFunc) (algo proto : ℕ)
    (lat bw0 : ℚ)
    (hbr : nccl_tuner_compute_cost_branch params dims func algo proto = some (lat, bw0)) :
    bw0 = params.internode_bw * (params.num_channels : ℚ) ∨
    bw0 = params.internode_bw * (params.num_channels : ℚ) / 2 := by
  cases func
  case ncclFuncAllReduce =>
    simp only [nccl_tuner_compute_cost_branch] at hbr
    split_ifs at hbr
    · simp only [Option.some.injEq, Prod.mk.injEq] at hbr
      exact Or.inl hbr.2.symm
    · simp only [Option.some.injEq, Prod.mk.injEq] at hbr
      exact Or.inr hbr.2.symm
    · simp only [Option.some.injEq, Prod.mk.injEq] at hbr
      exact Or.inr hbr.2.symm
  all_goals (simp only [nccl_tuner_compute_cost_branch] at hbr; exact Option.noConfusion hbr)

theorem nccl_proto_penalty_pos (proto : ℕ) : 0 < nccl_proto_penalty proto := by
  unfold nccl_proto_penalty
  split_ifs <;> norm_num

theorem session_internode_bw_pos : 0 < NCCL_TUNER_INTERNODE_BW := by
  norm_num [NCCL_TUNER_INTERNODE_BW]

/-- With the session parameters of `pluginInit`, the divisor of the
bandwidth division at tuner.h line 205 is strictly positive whenever the
switch reaches that division. -/
theorem branch_session_divisor_pos (dims : nccl_tuner_model_dims)
    (func : ncclFunc) (algo proto : ℕ) (lat bw0 : ℚ)
    (hbr : nccl_tuner_compute_cost_branch session_params dims func algo proto = some (lat, bw0)) :
    0 < bw0 * nccl_proto_penalty proto := by
  have hbw : (0 : ℚ) < session_params.internode_bw * (session_params.num_channels : ℚ) := by
    norm_num [session_params, pluginInit, NCCL_TUNER_INTERNODE_BW, NCCL_TUNER_NET_NUM_CHANNELS]
  rcases branch_bw_cases _ _ _ _ _ _ _ hbr with h | h
  · rw [h]
    exact mul_pos hbw (nccl_proto_penalty_pos proto)
  · rw [h]
    exact mul_pos (by linarith) (nccl_proto_penalty_pos proto)

theorem nccl_base_lat_nonneg (algo proto : ℕ) : 0 ≤ nccl_base_lat algo proto := by
  unfold nccl_base_lat
  split <;> norm_num

theorem nccl_nvlink_lat_nonneg (algo proto : ℕ) : 0 ≤ nccl_nvlink_lat algo proto := by
  unfold nccl_nvlink_lat
  split <;> norm_num

/-- Row-wise inequality of the two tables for the ring algorithm: twice the
NVLink latency never exceeds the base latency plus 6.  This is what keeps the
ring latency non-negative even when the intra-node step count is negative. -/
theorem ring_base_vs_nvlink (proto : ℕ) :
    2 * nccl_nvlink_lat NCCL_ALGO_RING proto ≤ nccl_base_lat NCCL_ALGO_RING proto + 6 := by
  rcases proto with _ | _ | _ | p
  · show (2 : ℚ) * 0.6 ≤ 6.6 + 6
    norm_num
  · show (2 : ℚ) * 1.9 ≤ 14.0 + 6
    norm_num
  · show (2 : ℚ) * 3.4 ≤ 8.4 + 6
    norm_num
  · show (2 : ℚ) * 0 ≤ 0 + 6
    norm_num

theorem log2i_nonneg (n : ℤ) : 0 ≤ log2i n := by
  unfold log2i
  exact Int.natCast_nonneg _

/-- With the session parameters and a coherent topology
(`1 ≤ num_nodes ≤ num_ranks`), every latency the switch computes is
non-negative. -/
theorem branch_session_lat_nonneg (dims : nccl_tuner_model_dims)
    (func : ncclFunc) (algo proto : ℕ) (lat bw0 : ℚ)
    (h1 : 1 ≤ dims.num_nodes) (h2 : dims.num_nodes ≤ dims.num_ranks)
    (hbr : nccl_tuner_compute_cost_branch session_params dims func algo proto = some (lat, bw0)) :
    0 ≤ lat := by
  have hnet : session_params.net_lat = 3 := rfl
  have hn1 : (1 : ℚ) ≤ (dims.num_nodes : ℚ) := by exact_mod_cast h1
  have hlog : (0 : ℚ) ≤ ((log2i dims.num_nodes : ℤ) : ℚ) := by
    exact_mod_cast log2i_nonneg dims.num_nodes
  cases func
  case ncclFuncAllReduce =>
    simp only [nccl_tuner_compute_cost_branch, hnet] at hbr
    split_ifs at hbr with ha1 ha0 ha5
    · -- ring
      simp only [Option.some.injEq, Prod.mk.injEq] at hbr
      rw [← hbr.1, ha1]
      have hsteps : (-2 : ℚ) ≤ ((2 * (dims.num_ranks - 1) - 2 * dims.num_nodes : ℤ) : ℚ) := by
        have : (-2 : ℤ) ≤ 2 * (dims.num_ranks - 1) - 2 * dims.num_nodes := by omega
        exact_mod_cast this
      have hkey := ring_base_vs_nvlink proto
      have hintra := nccl_nvlink_lat_nonneg NCCL_ALGO_RING proto
      have hprod : (-2 : ℚ) * nccl_nvlink_lat NCCL_ALGO_RING proto ≤
          ((2 * (dims.num_ranks - 1) - 2 * dims.num_nodes : ℤ) : ℚ)
            * nccl_nvlink_lat NCCL_ALGO_RING proto :=
        mul_le_mul_of_nonneg_right hsteps hintra
      have hcast : ((2 * dims.num_nodes : ℤ) : ℚ) = 2 * (dims.num_nodes : ℚ) := by
        push_cast; ring
      rw [hcast]
      nlinarith [hkey, hprod, hn1, hintra]
    · -- tree
      simp only [Option.some.injEq, Prod.mk.injEq] at hbr
      rw [← hbr.1, ha0]
      have hn0 : (0 : ℤ) < dims.num_nodes := by omega
      have hr0 : (0 : ℤ) ≤ dims.num_ranks := by omega
      have htd : (1 : ℤ) ≤ Int.tdiv dims.num_ranks dims.num_nodes := by
        rw [Int.tdiv_eq_ediv hr0 (by omega)]
        exact (Int.le_ediv_iff_mul_le hn0).mpr (by omega)
      have htd' : (0 : ℚ) ≤ ((Int.tdiv dims.num_ranks dims.num_nodes - 1 : ℤ) : ℚ) := by
        have : (0 : ℤ) ≤ Int.tdiv dims.num_ranks dims.num_nodes - 1 := by omega
        exact_mod_cast this
      have hintra := nccl_nvlink_lat_nonneg NCCL_ALGO_TREE proto
      have hbase := nccl_base_lat_nonneg NCCL_ALGO_TREE proto
      have t1 : (0 : ℚ) ≤ ((Int.tdiv dims.num_ranks dims.num_nodes - 1 : ℤ) : ℚ)
          * nccl_nvlink_lat NCCL_ALGO_TREE proto := mul_nonneg htd' hintra
      have t2 : (0 : ℚ) ≤ ((log2i dims.num_nodes : ℤ) : ℚ) * 3 := by positivity
      linarith
    · -- NVLS tree
      simp only [Option.some.injEq, Prod.mk.injEq] at hbr
      rw [← hbr.1, ha5]
      have hintra := nccl_nvlink_lat_nonneg NCCL_ALGO_NVLS_TREE proto
      have hbase := nccl_base_lat_nonneg NCCL_ALGO_NVLS_TREE proto
      have t2 : (0 : ℚ) ≤ 2 * ((log2i dims.num_nodes : ℤ) : ℚ) * 3 := by positivity
      linarith
  all_goals (simp only [nccl_tuner_compute_cost_branch] at hbr; exact Option.noConfusion hbr)

/-! ### Claims -/

/-- Claim C2: for an all-reduce with the ring algorithm, the cost function
computes total steps 2×(rankCount−1) of which 2×nodeCount are charged at the
inter-node latency and the remaining 2×(rankCount−1)−2×nodeCount at the
intra-node latency, uses effective bandwidth inter-node bandwidth × channel
count before the protocol penalty, and returns
(totalLatency × pipelineDepth) + payloadBytes / effectiveBandwidth. -/
theorem C2_allreduce_ring_cost (params : nccl_tuner_model_params)
    (dims : nccl_tuner_model_dims) (proto : ℕ) (pipe_ops : ℤ) (size : ℕ) :
    nccl_tuner_compute_cost params dims ncclFunc.ncclFuncAllReduce NCCL_ALGO_RING
        proto pipe_ops size =
      (nccl_base_lat NCCL_ALGO_RING proto
          + ((2 * dims.num_nodes : ℤ) : ℚ) * params.net_lat
          + ((2 * (dims.num_ranks - 1) - 2 * dims.num_nodes : ℤ) : ℚ)
              * nccl_nvlink_lat NCCL_ALGO_RING proto)
        * (pipe_ops : ℚ)
      + (size : ℚ)
          / (params.internode_bw * (params.num_channels : ℚ) * nccl_proto_penalty proto) := by
  rfl

/-- Claim C3: with nodeCount ≤ 2 the selection engine performs no search,
leaves every output cell unchanged and reports success. -/
theorem C3_small_topology_no_recommendation (ctx : nccl_tuner_context)
    (collType : ncclFunc) (nBytes : ℕ) (collNetSupport nvlsSupport : Bool)
    (numPipeOps : ℤ) (out : CollOut) (h : ctx.dims.num_nodes ≤ 2) :
    pluginGetCollInfo ctx collType nBytes collNetSupport nvlsSupport numPipeOps out =
      (ncclResult.ncclSuccess, out) := by
  unfold pluginGetCollInfo
  rw [if_pos h]

/-- Witness for C3 at rankCount = 2, nodeCount = 2, with arbitrary other
inputs. -/
theorem C3_small_topology_no_recommendation_witness :
    (pluginInit 2 2).dims.num_nodes ≤ 2 ∧
    pluginGetCollInfo (pluginInit 2 2) ncclFunc.ncclFuncAllReduce 1048576 false false 1
        ⟨-1, -1, 0⟩ = (ncclResult.ncclSuccess, ⟨-1, -1, 0⟩) :=
  ⟨by decide,
   C3_small_topology_no_recommendation (pluginInit 2 2) ncclFunc.ncclFuncAllReduce
     1048576 false false 1 ⟨-1, -1, 0⟩ (by decide)⟩

/-- Claim C6: for an all-reduce with the tree algorithm, the latency term is
the base latency plus 2×((rankCount/nodeCount − 1)×intra-node latency +
log2(nodeCount)×inter-node latency), and the effective bandwidth before the
protocol penalty is inter-node bandwidth × channel count / 2 — exactly half
the ring algorithm's. -/
theorem C6_allreduce_tree_cost (params : nccl_tuner_model_params)
    (dims : nccl_tuner_model_dims) (proto : ℕ) (pipe_ops : ℤ) (size : ℕ) :
    nccl_tuner_compute_cost params dims ncclFunc.ncclFuncAllReduce NCCL_ALGO_TREE
        proto pipe_ops size =
      (nccl_base_lat NCCL_ALGO_TREE proto
          + 2 * (((Int.tdiv dims.num_ranks dims.num_nodes - 1 : ℤ) : ℚ)
                   * nccl_nvlink_lat NCCL_ALGO_TREE proto
               + ((log2i dims.num_nodes : ℤ) : ℚ) * params.net_lat))
        * (pipe_ops : ℚ)
      + (size : ℚ)
          / (params.internode_bw * (params.num_channels : ℚ) / 2
              * nccl_proto_penalty proto)
    ∧ ∃ latT bwT latR bwR,
        nccl_tuner_compute_cost_branch params dims ncclFunc.ncclFuncAllReduce
            NCCL_ALGO_TREE proto = some (latT, bwT) ∧
        nccl_tuner_compute_cost_branch params dims ncclFunc.ncclFuncAllReduce
            NCCL_ALGO_RING proto = some (latR, bwR) ∧
        bwR = params.internode_bw * (params.num_channels : ℚ) ∧
        bwT = bwR / 2 := by
  constructor
  · rfl
  · refine ⟨nccl_base_lat NCCL_ALGO_TREE proto
        + 2 * (((Int.tdiv dims.num_ranks dims.num_nodes - 1 : ℤ) : ℚ)
                 * nccl_nvlink_lat NCCL_ALGO_TREE proto
             + ((log2i dims.num_nodes : ℤ) : ℚ) * params.net_lat),
      params.internode_bw * (params.num_channels : ℚ) / 2,
      nccl_base_lat NCCL_ALGO_RING proto
        + ((2 * dims.num_nodes : ℤ) : ℚ) * params.net_lat
        + ((2 * (dims.num_ranks - 1) - 2 * dims.num_nodes : ℤ) : ℚ)
            * nccl_nvlink_lat NCCL_ALGO_RING proto,
      params.internode_bw * (params.num_channels : ℚ),
      rfl, rfl, rfl, rfl⟩

/-- Claim C7: for fixed topology, operation kind, algorithm, protocol and
pipeline depth for which the cost function does not return the −1 sentinel,
the cost is monotonically non-decreasing in the payload size. -/
theorem C7_cost_monotone_in_payload (dims : nccl_tuner_model_dims)
    (func : ncclFunc) (algo proto : ℕ) (pipe_ops : ℤ) (s1 s2 : ℕ)
    (hne : nccl_tuner_compute_cost session_params dims func algo proto pipe_ops s1 ≠ -1)
    (hs : s1 ≤ s2) :
    nccl_tuner_compute_cost session_params dims func algo proto pipe_ops s1 ≤
      nccl_tuner_compute_cost session_params dims func algo proto pipe_ops s2 := by
  cases hbr : nccl_tuner_compute_cost_branch session_params dims func algo proto with
  | none => exact absurd (cost_of_branch_none _ _ _ _ _ _ _ hbr) hne
  | some lb =>
    obtain ⟨lat, bw0⟩ := lb
    rw [cost_of_branch_some _ _ _ _ _ _ _ _ _ hbr,
        cost_of_branch_some _ _ _ _ _ _ _ _ _ hbr]
    have hpos := branch_session_divisor_pos _ _ _ _ _ _ hbr
    have hcast : (s1 : ℚ) ≤ (s2 : ℚ) := by exact_mod_cast hs
    have hdiv : (s1 : ℚ) / (bw0 * nccl_proto_penalty proto) ≤
        (s2 : ℚ) / (bw0 * nccl_proto_penalty proto) := by gcongr
    linarith

/-- Witness for C7: ring all-reduce with the Simple protocol at 64 ranks on
8 nodes, payload growing from 0 to 1 MiB. -/
theorem C7_cost_monotone_in_payload_witness :
    nccl_tuner_compute_cost session_params ⟨64, 8⟩ ncclFunc.ncclFuncAllReduce
        NCCL_ALGO_RING NCCL_PROTO_SIMPLE 1 0 ≠ -1 ∧
    (0 : ℕ) ≤ 1048576 ∧
    nccl_tuner_compute_cost session_params ⟨64, 8⟩ ncclFunc.ncclFuncAllReduce
        NCCL_ALGO_RING NCCL_PROTO_SIMPLE 1 0 ≤
      nccl_tuner_compute_cost session_params ⟨64, 8⟩ ncclFunc.ncclFuncAllReduce
        NCCL_ALGO_RING NCCL_PROTO_SIMPLE 1 1048576 := by
  have hne : nccl_tuner_compute_cost session_params ⟨64, 8⟩ ncclFunc.ncclFuncAllReduce
      NCCL_ALGO_RING NCCL_PROTO_SIMPLE 1 0 ≠ -1 := by
    norm_num [nccl_tuner_compute_cost, nccl_tuner_compute_cost_branch, NCCL_ALGO_RING,
      session_params, pluginInit, NCCL_TUNER_NET_LAT, NCCL_TUNER_INTERNODE_BW,
      NCCL_TUNER_NET_NUM_CHANNELS, nccl_proto_penalty, NCCL_PROTO_LL, NCCL_PROTO_LL128,
      NCCL_PROTO_SIMPLE,
      show nccl_base_lat 1 2 = 8.4 from rfl, show nccl_nvlink_lat 1 2 = 3.4 from rfl]
  exact ⟨hne, Nat.zero_le _,
    C7_cost_monotone_in_payload ⟨64, 8⟩ ncclFunc.ncclFuncAllReduce NCCL_ALGO_RING
      NCCL_PROTO_SIMPLE 1 0 1048576 hne (Nat.zero_le _)⟩

/-- Claim C8: the cost function returns −1 for every (opKind, algorithm)
combination without a model (every opKind other than all-reduce, and for
all-reduce every algorithm other than ring, tree and NVLS-tree), and the
selection engine never surfaces this as an error: it always reports success,
and any recommendation it makes has non-negative cost. -/
theorem C8_unmodeled_sentinel_never_surfaced :
    (∀ (params : nccl_tuner_model_params) (dims : nccl_tuner_model_dims)
        (func : ncclFunc) (algo proto : ℕ) (pipe_ops : ℤ) (size : ℕ),
        (func ≠ ncclFunc.ncclFuncAllReduce ∨
          (algo ≠ NCCL_ALGO_RING ∧ algo ≠ NCCL_ALGO_TREE ∧ algo ≠ NCCL_ALGO_NVLS_TREE)) →
        nccl_tuner_compute_cost params dims func algo proto pipe_ops size = -1) ∧
    (∀ (ctx : nccl_tuner_context) (collType : ncclFunc) (nBytes : ℕ)
        (collNetSupport nvlsSupport : Bool) (numPipeOps : ℤ) (out : CollOut),
        (pluginGetCollInfo ctx collType nBytes collNetSupport nvlsSupport numPipeOps out).1 =
          ncclResult.ncclSuccess) ∧
    (∀ (ctx : nccl_tuner_context) (collType : ncclFunc) (nBytes : ℕ)
        (collNetSupport nvlsSupport : Bool) (numPipeOps : ℤ) (out : CollOut),
        (pluginGetCollInfo ctx collType nBytes collNetSupport nvlsSupport numPipeOps out).2 =
            out ∨
        ∃ m ∈ candidatePairs collNetSupport nvlsSupport,
          (pluginGetCollInfo ctx collType nBytes collNetSupport nvlsSupport numPipeOps out).2 =
            { out with algorithm := (m.1 : ℤ), protocol := (m.2 : ℤ) } ∧
          0 ≤ engineCost ctx collType nBytes numPipeOps m) := by
  refine ⟨?_, ?_, ?_⟩
  · intro params dims func algo proto pipe_ops size h
    exact cost_of_branch_none _ _ _ _ _ _ _ (branch_none_of_unmodeled _ _ _ _ _ h)
  · intro ctx collType nBytes collNetSupport nvlsSupport numPipeOps out
    unfold pluginGetCollInfo
    split
    · rfl
    · split <;> rfl
  · intro ctx collType nBytes collNetSupport nvlsSupport numPipeOps out
    unfold pluginGetCollInfo
    split
    · exact Or.inl rfl
    · cases heq : selectLoop (engineCost ctx collType nBytes numPipeOps)
          (candidatePairs collNetSupport nvlsSupport) with
      | none => simp [heq]
      | some m =>
        obtain ⟨hmem, h0, _⟩ := selectLoop_some_min _ _ _ heq
        exact Or.inr ⟨m, hmem, by simp [heq], h0⟩

/-- Witness for C8's hypothesis: a broadcast (no model for any algorithm)
costs exactly −1. -/
theorem C8_unmodeled_sentinel_never_surfaced_witness :
    nccl_tuner_compute_cost session_params ⟨64, 8⟩ ncclFunc.ncclFuncBroadcast
        NCCL_ALGO_RING NCCL_PROTO_SIMPLE 1 1048576 = -1 :=
  C8_unmodeled_sentinel_never_surfaced.1 session_params ⟨64, 8⟩
    ncclFunc.ncclFuncBroadcast NCCL_ALGO_RING NCCL_PROTO_SIMPLE 1 1048576
    (Or.inl (by decide))

/-- Claim C9: for every candidate pair the engine submits, with the session
parameters built at initialization, whenever the switch reaches the
bandwidth division the divisor (bandwidth after the protocol penalty) is
strictly positive: division by zero bandwidth is unreachable. -/
theorem C9_division_bandwidth_positive (collNetSupport nvlsSupport : Bool)
    (ap : ℕ × ℕ) (dims : nccl_tuner_model_dims) (func : ncclFunc) (lat bw0 : ℚ)
    (hmem : ap ∈ candidatePairs collNetSupport nvlsSupport)
    (hbr : nccl_tuner_compute_cost_branch session_params dims func ap.1 ap.2 =
      some (lat, bw0)) :
    0 < bw0 * nccl_proto_penalty ap.2 :=
  branch_session_divisor_pos _ _ _ _ _ _ hbr

/-- Witness for C9: the ring/Simple candidate on 64 ranks and 8 nodes. -/
theorem C9_division_bandwidth_positive_witness :
    (NCCL_ALGO_RING, NCCL_PROTO_SIMPLE) ∈ candidatePairs false false ∧
    nccl_tuner_compute_cost_branch session_params ⟨64, 8⟩ ncclFunc.ncclFuncAllReduce
        NCCL_ALGO_RING NCCL_PROTO_SIMPLE = some (430.4, 858993.4592) ∧
    0 < (858993.4592 : ℚ) * nccl_proto_penalty NCCL_PROTO_SIMPLE := by
  have hmem : (NCCL_ALGO_RING, NCCL_PROTO_SIMPLE) ∈ candidatePairs false false := by decide
  have hbr : nccl_tuner_compute_cost_branch session_params ⟨64, 8⟩
      ncclFunc.ncclFuncAllReduce NCCL_ALGO_RING NCCL_PROTO_SIMPLE =
      some (430.4, 858993.4592) := by
    norm_num [nccl_tuner_compute_cost_branch, NCCL_ALGO_RING, NCCL_PROTO_SIMPLE,
      session_params, pluginInit, NCCL_TUNER_NET_LAT, NCCL_TUNER_INTERNODE_BW,
      NCCL_TUNER_NET_NUM_CHANNELS,
      show nccl_base_lat 1 2 = 8.4 from rfl, show nccl_nvlink_lat 1 2 = 3.4 from rfl]
  exact ⟨hmem, hbr,
    C9_division_bandwidth_positive false false (NCCL_ALGO_RING, NCCL_PROTO_SIMPLE)
      ⟨64, 8⟩ ncclFunc.ncclFuncAllReduce 430.4 858993.4592 hmem hbr⟩

/-! ### The benchmark scenario: 64 ranks on 8 nodes, all-reduce, 1 MiB,
no collnet/NVLS capability, pipeline depth 1 -/

theorem nccl_base_lat_e00 : nccl_base_lat 0 0 = 6.8 := rfl
theorem nccl_base_lat_e01 : nccl_base_lat 0 1 = 14.0 := rfl
theorem nccl_base_lat_e10 : nccl_base_lat 1 0 = 6.6 := rfl
theorem nccl_base_lat_e11 : nccl_base_lat 1 1 = 14.0 := rfl
theorem nccl_base_lat_e12 : nccl_base_lat 1 2 = 8.4 := rfl

theorem scenario_candidates :
    candidatePairs false false = [(0, 0), (0, 1), (0, 2), (1, 0), (1, 1), (1, 2)] := rfl

theorem scenario_cost_00 :
    engineCost (pluginInit 64 8) ncclFunc.ncclFuncAllReduce 1048576 1 (0, 0) = 24373 / 640 := by
  norm_num [engineCost, nccl_tuner_compute_cost, nccl_tuner_compute_cost_branch,
    pluginInit, NCCL_TUNER_NET_LAT, NCCL_TUNER_INTERNODE_BW, NCCL_TUNER_NET_NUM_CHANNELS,
    NCCL_ALGO_RING, NCCL_ALGO_TREE, NCCL_ALGO_NVLS_TREE,
    nccl_proto_penalty, NCCL_PROTO_LL, NCCL_PROTO_LL128, NCCL_PROTO_SIMPLE,
    show Int.tdiv 64 8 = 8 from by decide, show log2i 8 = 3 from by decide,
    show nccl_base_lat 0 0 = 6.8 from rfl, show nccl_nvlink_lat 0 0 = 0.6 from rfl]

theorem scenario_cost_01 :
    engineCost (pluginInit 64 8) ncclFunc.ncclFuncAllReduce 1048576 1 (0, 1) = 2501 / 48 := by
  norm_num [engineCost, nccl_tuner_compute_cost, nccl_tuner_compute_cost_branch,
    pluginInit, NCCL_TUNER_NET_LAT, NCCL_TUNER_INTERNODE_BW, NCCL_TUNER_NET_NUM_CHANNELS,
    NCCL_ALGO_RING, NCCL_ALGO_TREE, NCCL_ALGO_NVLS_TREE,
    nccl_proto_penalty, NCCL_PROTO_LL, NCCL_PROTO_LL128, NCCL_PROTO_SIMPLE,
    show Int.tdiv 64 8 = 8 from by decide, show log2i 8 = 3 from by decide,
    show nccl_base_lat 0 1 = 14.0 from rfl, show nccl_nvlink_lat 0 1 = 1.25 from rfl]

theorem scenario_cost_02 :
    engineCost (pluginInit 64 8) ncclFunc.ncclFuncAllReduce 1048576 1 (0, 2) = 105585 / 256 := by
  norm_num [engineCost, nccl_tuner_compute_cost, nccl_tuner_compute_cost_branch,
    pluginInit, NCCL_TUNER_NET_LAT, NCCL_TUNER_INTERNODE_BW, NCCL_TUNER_NET_NUM_CHANNELS,
    NCCL_ALGO_RING, NCCL_ALGO_TREE, NCCL_ALGO_NVLS_TREE,
    nccl_proto_penalty, NCCL_PROTO_LL, NCCL_PROTO_LL128, NCCL_PROTO_SIMPLE,
    show Int.tdiv 64 8 = 8 from by decide, show log2i 8 = 3 from by decide,
    show nccl_base_lat 0 2 = 0 from rfl, show nccl_nvlink_lat 0 2 = 28 from rfl]

theorem scenario_cost_10 :
    engineCost (pluginInit 64 8) ncclFunc.ncclFuncAllReduce 1048576 1 (1, 0) = 157493 / 1280 := by
  norm_num [engineCost, nccl_tuner_compute_cost, nccl_tuner_compute_cost_branch,
    pluginInit, NCCL_TUNER_NET_LAT, NCCL_TUNER_INTERNODE_BW, NCCL_TUNER_NET_NUM_CHANNELS,
    NCCL_ALGO_RING, NCCL_ALGO_TREE, NCCL_ALGO_NVLS_TREE,
    nccl_proto_penalty, NCCL_PROTO_LL, NCCL_PROTO_LL128, NCCL_PROTO_SIMPLE,
    show nccl_base_lat 1 0 = 6.6 from rfl, show nccl_nvlink_lat 1 0 = 0.6 from rfl]

theorem scenario_cost_11 :
    engineCost (pluginInit 64 8) ncclFunc.ncclFuncAllReduce 1048576 1 (1, 1) = 26141 / 96 := by
  norm_num [engineCost, nccl_tuner_compute_cost, nccl_tuner_compute_cost_branch,
    pluginInit, NCCL_TUNER_NET_LAT, NCCL_TUNER_INTERNODE_BW, NCCL_TUNER_NET_NUM_CHANNELS,
    NCCL_ALGO_RING, NCCL_ALGO_TREE, NCCL_ALGO_NVLS_TREE,
    nccl_proto_penalty, NCCL_PROTO_LL, NCCL_PROTO_LL128, NCCL_PROTO_SIMPLE,
    show nccl_base_lat 1 1 = 14.0 from rfl, show nccl_nvlink_lat 1 1 = 1.9 from rfl]

theorem scenario_cost_12 :
    engineCost (pluginInit 64 8) ncclFunc.ncclFuncAllReduce 1048576 1 (1, 2) = 1104949 / 2560 := by
  norm_num [engineCost, nccl_tuner_compute_cost, nccl_tuner_compute_cost_branch,
    pluginInit, NCCL_TUNER_NET_LAT, NCCL_TUNER_INTERNODE_BW, NCCL_TUNER_NET_NUM_CHANNELS,
    NCCL_ALGO_RING, NCCL_ALGO_TREE, NCCL_ALGO_NVLS_TREE,
    nccl_proto_penalty, NCCL_PROTO_LL, NCCL_PROTO_LL128, NCCL_PROTO_SIMPLE,
    show nccl_base_lat 1 2 = 8.4 from rfl, show nccl_nvlink_lat 1 2 = 3.4 from rfl]

/-- In the benchmark scenario the loop's final incumbent is (Tree, LL),
the cheapest of the six evaluated candidates. -/
theorem scenario_select :
    selectLoop (engineCost (pluginInit 64 8) ncclFunc.ncclFuncAllReduce 1048576 1)
      [(0, 0), (0, 1), (0, 2), (1, 0), (1, 1), (1, 2)] = some (0, 0) := by
  simp only [selectLoop, List.foldl_cons, List.foldl_nil, selStep,
    scenario_cost_00, scenario_cost_01, scenario_cost_02, scenario_cost_10,
    scenario_cost_11, scenario_cost_12]
  norm_num [-Prod.mk_zero_zero, -Prod.mk_one_one,
    scenario_cost_00, scenario_cost_01, scenario_cost_02, scenario_cost_10,
    scenario_cost_11, scenario_cost_12]

/-- Claim C1: for every topology with nodeCount > 2 and every operation
descriptor, the selection engine reports success and returns the admissible
pair with the minimum cost among those with non-negative cost, under the
first-seen tie-break (every earlier candidate is negative-cost or strictly
worse); candidates with negative cost are discarded, and when no admissible
pair has non-negative cost the outputs are left unchanged rather than an
error being raised. -/
theorem C1_selection_first_minimum (ctx : nccl_tuner_context)
    (collType : ncclFunc) (nBytes : ℕ) (collNetSupport nvlsSupport : Bool)
    (numPipeOps : ℤ) (out : CollOut) (h : 2 < ctx.dims.num_nodes) :
    (pluginGetCollInfo ctx collType nBytes collNetSupport nvlsSupport numPipeOps out).1 =
        ncclResult.ncclSuccess ∧
    ((∀ ap ∈ candidatePairs collNetSupport nvlsSupport,
        engineCost ctx collType nBytes numPipeOps ap < 0) →
      (pluginGetCollInfo ctx collType nBytes collNetSupport nvlsSupport numPipeOps out).2 =
        out) ∧
    ((∃ ap ∈ candidatePairs collNetSupport nvlsSupport,
        0 ≤ engineCost ctx collType nBytes numPipeOps ap) →
      ∃ m ∈ candidatePairs collNetSupport nvlsSupport,
        (pluginGetCollInfo ctx collType nBytes collNetSupport nvlsSupport numPipeOps out).2 =
          { out with algorithm := (m.1 : ℤ), protocol := (m.2 : ℤ) } ∧
        0 ≤ engineCost ctx collType nBytes numPipeOps m ∧
        (∀ y ∈ candidatePairs collNetSupport nvlsSupport,
            0 ≤ engineCost ctx collType nBytes numPipeOps y →
            engineCost ctx collType nBytes numPipeOps m ≤
              engineCost ctx collType nBytes numPipeOps y) ∧
        ∃ l1 l2, candidatePairs collNetSupport nvlsSupport = l1 ++ m :: l2 ∧
          ∀ y ∈ l1, engineCost ctx collType nBytes numPipeOps y < 0 ∨
            engineCost ctx collType nBytes numPipeOps m <
              engineCost ctx collType nBytes numPipeOps y) := by
  have hn : ¬ ctx.dims.num_nodes ≤ 2 := not_le.mpr h
  unfold pluginGetCollInfo
  rw [if_neg hn]
  cases heq : selectLoop (engineCost ctx collType nBytes numPipeOps)
      (candidatePairs collNetSupport nvlsSupport) with
  | none =>
    refine ⟨rfl, fun _ => rfl, ?_⟩
    rintro ⟨ap, hap, h0⟩
    exact absurd h0 (not_le.mpr ((selectLoop_eq_none_iff _ _).mp heq ap hap))
  | some m =>
    obtain ⟨hmem, h0, hmin⟩ := selectLoop_some_min _ _ _ heq
    obtain ⟨_, l1, l2, hsplit, hpre, _⟩ := selectLoop_some_spec _ _ _ heq
    refine ⟨rfl, ?_, ?_⟩
    · intro hall
      rw [(selectLoop_eq_none_iff _ _).mpr hall] at heq
      exact Option.noConfusion heq
    · intro _
      exact ⟨m, hmem, rfl, h0, hmin, l1, l2, hsplit, hpre⟩

/-- Witness for C1 in the benchmark scenario (64 ranks, 8 nodes, all-reduce,
1 MiB, no capabilities, pipeline depth 1). -/
theorem C1_selection_first_minimum_witness :
    2 < (pluginInit 64 8).dims.num_nodes ∧
    ((pluginGetCollInfo (pluginInit 64 8) ncclFunc.ncclFuncAllReduce 1048576 false false 1
        ⟨-1, -1, 0⟩).1 = ncclResult.ncclSuccess ∧
    ((∀ ap ∈ candidatePairs false false,
        engineCost (pluginInit 64 8) ncclFunc.ncclFuncAllReduce 1048576 1 ap < 0) →
      (pluginGetCollInfo (pluginInit 64 8) ncclFunc.ncclFuncAllReduce 1048576 false false 1
        ⟨-1, -1, 0⟩).2 = ⟨-1, -1, 0⟩) ∧
    ((∃ ap ∈ candidatePairs false false,
        0 ≤ engineCost (pluginInit 64 8) ncclFunc.ncclFuncAllReduce 1048576 1 ap) →
      ∃ m ∈ candidatePairs false false,
        (pluginGetCollInfo (pluginInit 64 8) ncclFunc.ncclFuncAllReduce 1048576 false false 1
          ⟨-1, -1, 0⟩).2 =
          { (⟨-1, -1, 0⟩ : CollOut) with algorithm := (m.1 : ℤ), protocol := (m.2 : ℤ) } ∧
        0 ≤ engineCost (pluginInit 64 8) ncclFunc.ncclFuncAllReduce 1048576 1 m ∧
        (∀ y ∈ candidatePairs false false,
            0 ≤ engineCost (pluginInit 64 8) ncclFunc.ncclFuncAllReduce 1048576 1 y →
            engineCost (pluginInit 64 8) ncclFunc.ncclFuncAllReduce 1048576 1 m ≤
              engineCost (pluginInit 64 8) ncclFunc.ncclFuncAllReduce 1048576 1 y) ∧
        ∃ l1 l2, candidatePairs false false = l1 ++ m :: l2 ∧
          ∀ y ∈ l1, engineCost (pluginInit 64 8) ncclFunc.ncclFuncAllReduce 1048576 1 y < 0 ∨
            engineCost (pluginInit 64 8) ncclFunc.ncclFuncAllReduce 1048576 1 m <
              engineCost (pluginInit 64 8) ncclFunc.ncclFuncAllReduce 1048576 1 y)) :=
  ⟨by decide,
   C1_selection_first_minimum (pluginInit 64 8) ncclFunc.ncclFuncAllReduce 1048576
     false false 1 ⟨-1, -1, 0⟩ (by decide)⟩

/-- Counterexample to claim C4: in the scenario rankCount = 64, nodeCount = 8,
all-reduce, 1 MiB payload, no collnet/NVLS capability, pipeline depth 1, the
engine makes a genuine recommendation (algorithm Tree, protocol LL) but the
channel-count output keeps its incoming value 0, which differs from the
configured channel budget 16: `*nChannels` is never written. -/
theorem C4_counterexample :
    pluginGetCollInfo (pluginInit 64 8) ncclFunc.ncclFuncAllReduce 1048576 false false 1
        ⟨-1, -1, 0⟩ = (ncclResult.ncclSuccess, ⟨0, 0, 0⟩) ∧
    (pluginGetCollInfo (pluginInit 64 8) ncclFunc.ncclFuncAllReduce 1048576 false false 1
        ⟨-1, -1, 0⟩).2.nChannels ≠ NCCL_TUNER_NET_NUM_CHANNELS := by
  have hmain : pluginGetCollInfo (pluginInit 64 8) ncclFunc.ncclFuncAllReduce 1048576
      false false 1 ⟨-1, -1, 0⟩ = (ncclResult.ncclSuccess, ⟨0, 0, 0⟩) := by
    unfold pluginGetCollInfo
    rw [if_neg (by decide), scenario_candidates, scenario_select]
    decide
  exact ⟨hmain, by rw [hmain]; decide⟩

/-- Claim C4, amended: the engine never writes the channel-count output at
all — whatever it recommends, `nChannels` keeps the caller's incoming value
(the caller's default), and is in particular not set to the configured
channel budget. -/
theorem C4_amended_nchannels_never_written (ctx : nccl_tuner_context)
    (collType : ncclFunc) (nBytes : ℕ) (collNetSupport nvlsSupport : Bool)
    (numPipeOps : ℤ) (out : CollOut) :
    ((pluginGetCollInfo ctx collType nBytes collNetSupport nvlsSupport numPipeOps out).2).nChannels =
      out.nChannels := by
  unfold pluginGetCollInfo
  split
  · rfl
  · split <;> rfl

/-- Counterexample to claim C5: the pair (Tree, Simple) is admissible in
every configuration (here: collnet and NVLS both unavailable), its
base-latency table entry is the zero sentinel, and the cost function folds
that zero in as a genuine latency, producing an ordinary non-negative
cost. -/
theorem C5_counterexample :
    (NCCL_ALGO_TREE, NCCL_PROTO_SIMPLE) ∈ candidatePairs false false ∧
    nccl_base_lat NCCL_ALGO_TREE NCCL_PROTO_SIMPLE = 0 ∧
    0 ≤ engineCost (pluginInit 64 8) ncclFunc.ncclFuncAllReduce 1048576 1
        (NCCL_ALGO_TREE, NCCL_PROTO_SIMPLE) := by
  refine ⟨by decide, rfl, ?_⟩
  rw [show ((NCCL_ALGO_TREE, NCCL_PROTO_SIMPLE) : ℕ × ℕ) = (0, 2) from rfl,
    scenario_cost_02]
  norm_num

/-- Claim C5, amended: the admissibility rules do not filter out
zero-sentinel base-latency entries.  Among the pairs the engine evaluates,
the zero entries are exactly (Tree, Simple) — always admissible — together
with every collnet pair when collnet-capable and (NVLS-tree, Simple) when
NVLS-capable; all other evaluated pairs have nonzero entries. -/
theorem C5_amended_zero_entries (collNetSupport nvlsSupport : Bool)
    (ap : ℕ × ℕ) (hmem : ap ∈ candidatePairs collNetSupport nvlsSupport) :
    nccl_base_lat ap.1 ap.2 = 0 ↔
      (ap = (NCCL_ALGO_TREE, NCCL_PROTO_SIMPLE) ∨ ap.1 = NCCL_ALGO_COLLNET_DIRECT ∨
       ap.1 = NCCL_ALGO_COLLNET_CHAIN ∨ ap.1 = NCCL_ALGO_NVLS_TREE) := by
  cases collNetSupport <;> cases nvlsSupport <;>
    · fin_cases hmem <;>
        first
          | exact iff_of_true rfl (by decide)
          | exact iff_of_false
              (by norm_num [nccl_base_lat_e00, nccl_base_lat_e01, nccl_base_lat_e10,
                nccl_base_lat_e11, nccl_base_lat_e12])
              (by decide)

/-- Witness for the amended C5 at the always-admissible zero entry
(Tree, Simple). -/
theorem C5_amended_zero_entries_witness :
    ((NCCL_ALGO_TREE, NCCL_PROTO_SIMPLE) : ℕ × ℕ) ∈ candidatePairs false false ∧
    (nccl_base_lat ((NCCL_ALGO_TREE, NCCL_PROTO_SIMPLE) : ℕ × ℕ).1
        ((NCCL_ALGO_TREE, NCCL_PROTO_SIMPLE) : ℕ × ℕ).2 = 0 ↔
      (((NCCL_ALGO_TREE, NCCL_PROTO_SIMPLE) : ℕ × ℕ) =
          (NCCL_ALGO_TREE, NCCL_PROTO_SIMPLE) ∨
       ((NCCL_ALGO_TREE, NCCL_PROTO_SIMPLE) : ℕ × ℕ).1 = NCCL_ALGO_COLLNET_DIRECT ∨
       ((NCCL_ALGO_TREE, NCCL_PROTO_SIMPLE) : ℕ × ℕ).1 = NCCL_ALGO_COLLNET_CHAIN ∨
       ((NCCL_ALGO_TREE, NCCL_PROTO_SIMPLE) : ℕ × ℕ).1 = NCCL_ALGO_NVLS_TREE)) :=
  ⟨by decide,
   C5_amended_zero_entries false false (NCCL_ALGO_TREE, NCCL_PROTO_SIMPLE) (by decide)⟩

/-- Claim C10: with the session parameters, a coherent topology
(1 ≤ nodeCount ≤ rankCount) and pipeline depth ≥ 1, the cost function
returns either exactly the −1 sentinel or a non-negative value, for every
operation kind, algorithm, protocol and payload size — in particular the
ring latency stays non-negative even when its intra-node step count
2×(rankCount−1) − 2×nodeCount is negative, so a genuine cost is never
mistaken for the sentinel. -/
theorem C10_cost_sentinel_or_nonneg (dims : nccl_tuner_model_dims)
    (func : ncclFunc) (algo proto : ℕ) (pipe_ops : ℤ) (size : ℕ)
    (h1 : 1 ≤ dims.num_nodes) (h2 : dims.num_nodes ≤ dims.num_ranks)
    (hp : 1 ≤ pipe_ops) :
    nccl_tuner_compute_cost session_params dims func algo proto pipe_ops size = -1 ∨
    0 ≤ nccl_tuner_compute_cost session_params dims func algo proto pipe_ops size := by
  cases hbr : nccl_tuner_compute_cost_branch session_params dims func algo proto with
  | none => exact Or.inl (cost_of_branch_none _ _ _ _ _ _ _ hbr)
  | some lb =>
    obtain ⟨lat, bw0⟩ := lb
    right
    rw [cost_of_branch_some _ _ _ _ _ _ _ _ _ hbr]
    have hlat := branch_session_lat_nonneg _ _ _ _ _ _ h1 h2 hbr
    have hdivpos := branch_session_divisor_pos _ _ _ _ _ _ hbr
    have hpipe : (1 : ℚ) ≤ (pipe_ops : ℚ) := by exact_mod_cast hp
    have t1 : 0 ≤ lat * (pipe_ops : ℚ) := mul_nonneg hlat (by linarith)
    have t2 : 0 ≤ (size : ℚ) / (bw0 * nccl_proto_penalty proto) :=
      div_nonneg (by positivity) (le_of_lt hdivpos)
    linarith

/-- Witness for C10 at nodeCount = rankCount = 8 (negative intra-node step
count in the ring model), all-reduce, ring, Simple protocol. -/
theorem C10_cost_sentinel_or_nonneg_witness :
    (1 : ℤ) ≤ (⟨8, 8⟩ : nccl_tuner_model_dims).num_nodes ∧
    (⟨8, 8⟩ : nccl_tuner_model_dims).num_nodes ≤ (⟨8, 8⟩ : nccl_tuner_model_dims).num_ranks ∧
    (1 : ℤ) ≤ 1 ∧
    (nccl_tuner_compute_cost session_params ⟨8, 8⟩ ncclFunc.ncclFuncAllReduce
        NCCL_ALGO_RING NCCL_PROTO_SIMPLE 1 1048576 = -1 ∨
     0 ≤ nccl_tuner_compute_cost session_params ⟨8, 8⟩ ncclFunc.ncclFuncAllReduce
        NCCL_ALGO_RING NCCL_PROTO_SIMPLE 1 1048576) :=
  ⟨by decide, by decide, by decide,
   C10_cost_sentinel_or_nonneg ⟨8, 8⟩ ncclFunc.ncclFuncAllReduce NCCL_ALGO_RING
     NCCL_PROTO_SIMPLE 1 1048576 (by decide) (by decide) (by decide)⟩

end NcclTuner
